import Mathlib

/-!
# Verification of the bobs-midi-convert batch conversion pipeline

A shallow embedding, in Lean 4, of the core of the audio-to-MIDI batch
converter: the filename sanitizer and MIDI note encoder
(`src/modules/midiGenerator.js`), the audio trim / mono-fold stages
(`src/modules/audioProcessor.js`), and the batch orchestration loop with
cooperative cancellation and ZIP packaging (`src/modules/uiController.js`,
main application part).

Modelling conventions:
* JavaScript numbers (IEEE doubles) are idealized as exact rationals `ℚ`;
  all comparisons the claims exercise are on small exact values where the
  double and the rational agree.
* Raw audio bytes, and the third-party collaborators (Web Audio decode,
  offline resampling render, the Magenta transcription model) are opaque:
  they appear as parameters (`Stages`) returning `Except` values, exactly
  as the orchestrator treats them (any thrown error is caught per item).
* `Float32Array` channel data is a `List ℚ`.  A JavaScript out-of-range
  indexed read yields `undefined` (stored into a `Float32Array` as NaN);
  the model returns `0` there (`chanRead`).  No theorem below depends on
  the value of an out-of-range read, only on lengths of buffers.
-/

attribute [local semireducible] Rat.mul Rat.add Rat.sub Rat.inv

/-- Structural decidable equality for `Except` (used to evaluate the
model's fallible stages on concrete inputs). -/
instance {ε α : Type} [DecidableEq ε] [DecidableEq α] : DecidableEq (Except ε α) := fun x y =>
  match x, y with
  | Except.ok a, Except.ok b =>
    if h : a = b then Decidable.isTrue (by rw [h])
    else Decidable.isFalse (by simp [h])
  | Except.error a, Except.error b =>
    if h : a = b then Decidable.isTrue (by rw [h])
    else Decidable.isFalse (by simp [h])
  | Except.ok _, Except.error _ => Decidable.isFalse (by simp)
  | Except.error _, Except.ok _ => Decidable.isFalse (by simp)

namespace MidiConvert

/-! ## JavaScript string primitives used by the source -/

/-- JS regex `\w` (ASCII word character): `[A-Za-z0-9_]`. -/
def isJsWordChar (c : Char) : Bool :=
  c.isAlpha || c.isDigit || c = '_'

/-- JS regex `\s`: the ECMAScript WhiteSpace / LineTerminator code points. -/
def isJsSpaceChar (c : Char) : Bool :=
  let v := c.toNat
  (9 ≤ v && v ≤ 13) || v = 32 || v = 160 || v = 0x1680 ||
  (0x2000 ≤ v && v ≤ 0x200a) || v = 0x2028 || v = 0x2029 ||
  v = 0x202f || v = 0x205f || v = 0x3000 || v = 0xfeff

/-- Characters kept by `.replace(/[^\w\s-]/g, '')` in `sanitizeFilename`. -/
def isKeptChar (c : Char) : Bool :=
  isJsWordChar c || isJsSpaceChar c || c = '-'

/-- Characters matched by `[-\s]` in `.replace(/[-\s]+/g, '_')`. -/
def isDashOrSpace (c : Char) : Bool :=
  c = '-' || isJsSpaceChar c

/-- Global replace of every maximal run of `[-\s]` by a single `'_'`
(the effect of `.replace(/[-\s]+/g, '_')`).  The boolean records whether
the previous character was part of a run. -/
def collapseAux : Bool → List Char → List Char
  | _, [] => []
  | inRun, c :: cs =>
    if isDashOrSpace c then
      if inRun then collapseAux true cs else '_' :: collapseAux true cs
    else
      c :: collapseAux false cs

/-- The characters of the string `".mid"`. -/
def midSuffix : List Char := ['.', 'm', 'i', 'd']

/-- `midiGenerator.js` `sanitizeFilename`, step 1:
`if (!filename.endsWith('.mid')) filename += '.mid';`. -/
def ensureMidSuffix (l : List Char) : List Char :=
  if midSuffix.isSuffixOf l then l else l ++ midSuffix

/-- `midiGenerator.js` `sanitizeFilename` on character lists: append the
`.mid` suffix when absent, then
`.replace(/[^\w\s-]/g, '').replace(/[-\s]+/g, '_').substring(0, 200)`. -/
def sanitizeChars (l : List Char) : List Char :=
  (collapseAux false ((ensureMidSuffix l).filter isKeptChar)).take 200

/-- `MIDIGenerator.sanitizeFilename` (midiGenerator.js). -/
def sanitizeFilename (s : String) : String :=
  String.mk (sanitizeChars s.data)

/-- `String.prototype.replace` with a plain-string pattern: replace the
first occurrence of `pat` (if any) by `rep`.  Used by the source as
`result.filename.replace('.mid', '.mp3')`. -/
def replaceFirstChars : List Char → List Char → List Char → List Char
  | [], pat, rep => if pat = [] then rep else []
  | c :: cs, pat, rep =>
    if pat.isPrefixOf (c :: cs) then rep ++ (c :: cs).drop pat.length
    else c :: replaceFirstChars cs pat rep

/-- `String.prototype.replace` (first-occurrence, plain-string pattern). -/
def stringReplaceFirst (s pat rep : String) : String :=
  String.mk (replaceFirstChars s.data pat.data rep.data)

/-! ## midiGenerator.js: notes and the MIDI encoder -/

/-- One note of a Magenta `NoteSequence` (`noteSequence.notes[i]`):
`pitch`, `startTime`, `endTime`, and an optional `velocity`
(`undefined` is `none`). -/
structure SeqNote where
  pitch : Nat
  startTime : ℚ
  endTime : ℚ
  velocity : Option Nat
deriving DecidableEq, Repr

/-- A Magenta `NoteSequence` as consumed by `MIDIGenerator`. -/
structure NoteSequence where
  notes : List SeqNote
deriving DecidableEq, Repr

/-- One `track.addNote({...})` event of the `@tonejs/midi` track built by
`generateMIDI`.  The byte-level encoding `midi.toArray()` is the opaque
third-party library; one track event corresponds to one encoded note. -/
structure MidiNote where
  midi : Nat
  time : ℚ
  duration : ℚ
  velocity : ℚ
deriving DecidableEq, Repr

/-- `this.defaultVelocity` set in the `MIDIGenerator` constructor. -/
def defaultVelocity : Nat := 64

/-- The options object of `generateMIDI` after destructuring with its
defaults (`maxNoteDuration = null`, `enableMaxNotesFilter = true`). -/
structure GenOptions where
  maxNoteDuration : Option ℚ := none
  enableMaxNotesFilter : Bool := true
deriving DecidableEq, Repr

/-- `MIDIGenerator.filterByDuration`: keep the notes with
`endTime - startTime <= maxDuration`. -/
def filterByDuration (notes : List SeqNote) (maxDuration : ℚ) : List SeqNote :=
  notes.filter (fun note => note.endTime - note.startTime ≤ maxDuration)

/-- The `track.addNote` argument built for one note inside `generateMIDI`:
pitch unchanged, `time = startTime`, `duration = endTime - startTime`,
velocity divided by 127 with `defaultVelocity` for an absent one. -/
def toMidiNote (note : SeqNote) : MidiNote :=
  { midi := note.pitch
    time := note.startTime
    duration := note.endTime - note.startTime
    velocity :=
      match note.velocity with
      | some v => (v : ℚ) / 127
      | none => (defaultVelocity : ℚ) / 127 }

/-- `MIDIGenerator.generateMIDI`, modelled as the list of track events in
input order (`midi.toArray()`, the byte encoding of that track, is the
opaque `@tonejs/midi` library). -/
def generateMIDI (noteSequence : NoteSequence) (options : GenOptions) : List MidiNote :=
  let notes := noteSequence.notes
  let notes :=
    match options.enableMaxNotesFilter, options.maxNoteDuration with
    | true, some maxDuration => filterByDuration notes maxDuration
    | _, _ => notes
  notes.map toMidiNote

/-- `MIDIGenerator.getNoteCount`: the length of the unfiltered note list. -/
def getNoteCount (noteSequence : NoteSequence) : Nat :=
  noteSequence.notes.length

/-! ## audioProcessor.js: buffers, trim, mono fold, resampling -/

/-- A Web Audio `AudioBuffer`: sample rate, `length` (frame count) and the
per-channel `Float32Array` data (`getChannelData(ch)`). -/
structure AudioBuffer where
  sampleRate : Nat
  frameCount : Nat
  channels : List (List ℚ)
deriving DecidableEq, Repr

/-- A decoded buffer has every channel of length `length`. -/
def AudioBuffer.wellFormed (b : AudioBuffer) : Prop :=
  ∀ ch ∈ b.channels, ch.length = b.frameCount

instance (b : AudioBuffer) : Decidable b.wellFormed := by
  unfold AudioBuffer.wellFormed; infer_instance

/-- JS indexed read `data[i]` on a `Float32Array` with a possibly negative
or too-large index.  Out of range, JS yields `undefined` (which a
`Float32Array` stores as NaN); the model returns `0` there, and no theorem
depends on an out-of-range read. -/
def chanRead (data : List ℚ) (i : ℤ) : ℚ :=
  if 0 ≤ i ∧ i < data.length then data.getD i.toNat 0 else 0

/-- In-bounds JS indexed read `data[i]`, `i : ℕ` (same NaN caveat). -/
def sampleAt (data : List ℚ) (i : Nat) : ℚ :=
  data.getD i 0

/-- The error kinds observable by the orchestrator's per-item `catch`.
`invalidTrimRange` is listed because the specification names an
`InvalidTrimRangeError`; no code path of the repository produces it. -/
inductive ErrKind where
  | decodeError
  | transcriptionError
  | notSupportedError
  | invalidTrimRange
deriving DecidableEq, Repr

/-- A thrown JS error as the orchestrator's `catch (error)` sees it. -/
structure JsError where
  kind : ErrKind
  message : String
deriving DecidableEq, Repr

/-- The exception the platform `audioContext.createBuffer` throws when the
requested length is not a positive frame count (Web Audio
`NotSupportedError`; a negative JS length cannot be allocated either). -/
def jsNotSupported : JsError :=
  { kind := ErrKind.notSupportedError, message := "NotSupportedError" }

/-- `startSample = Math.floor(startTime * sampleRate)` in `trimAudio`. -/
def startSampleOf (b : AudioBuffer) (startTime : ℚ) : ℤ :=
  Int.floor (startTime * (b.sampleRate : ℚ))

/-- `endSample = endTime ? Math.floor(endTime * sampleRate) :
audioBuffer.length` in `trimAudio`: JS truthiness makes the passed value
`null` or `0` select `audioBuffer.length`. -/
def endSampleOf (b : AudioBuffer) (endTime : Option ℚ) : ℤ :=
  match endTime with
  | none => (b.frameCount : ℤ)
  | some e => if e = 0 then (b.frameCount : ℤ) else Int.floor (e * (b.sampleRate : ℚ))

/-- `AudioProcessor.trimAudio`.  The only failure is the platform
`createBuffer` rejecting a non-positive `trimmedLength`; the function
itself performs no range validation.  The copy loop reads
`sourceData[startSample + i]` through `chanRead`. -/
def trimAudio (audioBuffer : AudioBuffer) (startTime : ℚ := 0)
    (endTime : Option ℚ := none) : Except JsError AudioBuffer :=
  let startSample := startSampleOf audioBuffer startTime
  let endSample := endSampleOf audioBuffer endTime
  let trimmedLength := endSample - startSample
  if trimmedLength ≤ 0 then Except.error jsNotSupported
  else
    Except.ok
      { sampleRate := audioBuffer.sampleRate
        frameCount := trimmedLength.toNat
        channels :=
          audioBuffer.channels.map (fun sourceData =>
            (List.range trimmedLength.toNat).map (fun i : ℕ =>
              chanRead sourceData (startSample + i))) }

/-- `AudioProcessor.convertToMono`: fast path when already mono, else a
one-channel buffer whose frame `i` accumulates
`sum += getChannelData(channel)[i]` over all channels and divides by
`numberOfChannels`. -/
def convertToMono (audioBuffer : AudioBuffer) : AudioBuffer :=
  if audioBuffer.channels.length = 1 then audioBuffer
  else
    { sampleRate := audioBuffer.sampleRate
      frameCount := audioBuffer.frameCount
      channels :=
        [(List.range audioBuffer.frameCount).map (fun i =>
          (audioBuffer.channels.foldl (fun sum ch => sum + sampleAt ch i) 0) /
            (audioBuffer.channels.length : ℚ))] }

/-- `AudioProcessor.getAudioSamples`: mono fold then `getChannelData(0)`. -/
def getAudioSamples (audioBuffer : AudioBuffer) : List ℚ :=
  (convertToMono audioBuffer).channels.headD []

/-! ## The batch orchestrator (main application part of uiController.js) -/

/-- One entry of `audioSources` after acquisition: raw container bytes and
the derived base name (the `type` tag plays no further role). -/
structure Source where
  buffer : List Nat
  name : String
deriving DecidableEq, Repr

/-- The fields of `ui.getSettings()` consumed by the processing loop and
the packaging step (`youtubeUrls`, `modelChoice` and `chunkDur` only feed
acquisition and the model choice; `zipFilename` and `keepMp3` only the
archive name and source retention). -/
structure Settings where
  customTitle : String
  maxNotes : ℚ
  enableMaxNotes : Bool
  startTime : ℚ
  endTime : ℚ
  zipOutput : Bool
  includeMp3 : Bool
deriving DecidableEq, Repr

/-- The opaque asynchronous collaborators the per-item pipeline awaits:
`audioProcessor.loadAudio` (native decode with ffmpeg fallback), the
offline-context render inside `resampleAudio`, and
`pianoTranscription.transcribe`.  Each may throw; the orchestrator catches
any thrown error at the item boundary. -/
structure Stages where
  loadAudio : List Nat → Except JsError AudioBuffer
  resampleRender : AudioBuffer → Nat → Except JsError AudioBuffer
  transcribe : List ℚ → Except JsError NoteSequence
  requiredSampleRate : Nat

/-- `AudioProcessor.resampleAudio`: fast path when the rate already
matches, otherwise the opaque offline render. -/
def resampleAudio (st : Stages) (audioBuffer : AudioBuffer) (targetSampleRate : Nat) :
    Except JsError AudioBuffer :=
  if audioBuffer.sampleRate = targetSampleRate then Except.ok audioBuffer
  else st.resampleRender audioBuffer targetSampleRate

/-- The filename determination inside the processing loop of
`startConversion`: custom title verbatim for a single source, custom title
with the 1-based source index appended for several sources, the source's
own base name otherwise; always passed through `sanitizeFilename`.
(JS truthiness of `settings.customTitle`: the empty string is falsy.) -/
def chooseName (settings : Settings) (total i : Nat) (source : Source) : String :=
  sanitizeFilename
    (if settings.customTitle ≠ "" ∧ total = 1 then settings.customTitle
     else if settings.customTitle ≠ "" ∧ 1 < total then
       settings.customTitle ++ "_" ++ Nat.repr (i + 1)
     else source.name)

/-- One entry pushed onto `results` by the processing loop. -/
structure ConversionResult where
  midiData : List MidiNote
  filename : String
  audioBuffer : List Nat
  noteCount : Nat
deriving DecidableEq, Repr

/-- The `try` block of the processing loop of `startConversion` for the
source at index `i` of a batch of `total` sources: load, optional trim
(only when `startTime > 0 || endTime > 0`, with a non-positive `endTime`
passed as `null`), resample, sample extraction, transcription, MIDI
generation, and result construction.  A thrown error anywhere surfaces as
the `Except.error` the `catch` receives. -/
def processItem (st : Stages) (settings : Settings) (total i : Nat) (source : Source) :
    Except JsError ConversionResult := do
  let audioBuffer ← st.loadAudio source.buffer
  let audioBuffer ←
    if 0 < settings.startTime ∨ 0 < settings.endTime then
      trimAudio audioBuffer settings.startTime
        (if 0 < settings.endTime then some settings.endTime else none)
    else pure audioBuffer
  let audioBuffer ← resampleAudio st audioBuffer st.requiredSampleRate
  let audioSamples := getAudioSamples audioBuffer
  let noteSequence ← st.transcribe audioSamples
  let midiData := generateMIDI noteSequence
    { maxNoteDuration := some settings.maxNotes
      enableMaxNotesFilter := settings.enableMaxNotes }
  Except.ok
    { midiData := midiData
      filename := chooseName settings total i source
      audioBuffer := source.buffer
      noteCount := getNoteCount noteSequence }

/-- The mutable batch state the loop accumulates: the `results` array and
the per-item failure log lines `(source.name, error kind, error.message)`
written by the `catch` branch. -/
structure BatchState where
  results : List ConversionResult
  errors : List (String × ErrKind × String)
deriving DecidableEq, Repr

/-- The `for` loop of `startConversion` from index `i` on: observe
`cancelRequested` at the item boundary (`if (cancelRequested) break`),
otherwise run the item and record its outcome, then continue. -/
def runLoopAux (st : Stages) (settings : Settings) (total : Nat)
    (cancelRequested : Nat → Bool) : Nat → List Source → BatchState → BatchState
  | _, [], state => state
  | i, source :: rest, state =>
    if cancelRequested i then state
    else
      match processItem st settings total i source with
      | Except.ok r =>
        runLoopAux st settings total cancelRequested (i + 1) rest
          { state with results := state.results ++ [r] }
      | Except.error e =>
        runLoopAux st settings total cancelRequested (i + 1) rest
          { state with errors := state.errors ++ [(source.name, e.kind, e.message)] }

/-- The whole processing loop over `audioSources`, starting from a fresh
`results`/`errors` state.  `cancelRequested i` is the value of the
asynchronously settable `cancelRequested` flag as observed at the boundary
before item `i` starts (the only points where the loop reads it). -/
def runLoop (st : Stages) (settings : Settings) (sources : List Source)
    (cancelRequested : Nat → Bool) : BatchState :=
  runLoopAux st settings sources.length cancelRequested 0 sources ⟨[], []⟩

/-- The schedule of a flag first observed set at boundary `c` (cooperative
cancellation: `cancelConversion` only ever sets the flag, and
`startConversion` clears it once, before the loop). -/
def cancelFrom (c : Nat) : Nat → Bool :=
  fun i => decide (c ≤ i)

/-- The schedule of a never-cancelled batch. -/
def noCancel : Nat → Bool :=
  fun _ => false

/-! ## ZIP packaging (startConversion / downloadMIDI) -/

/-- The data of one archive entry: an encoded MIDI track or retained
source audio bytes. -/
inductive ZipData where
  | midi (track : List MidiNote)
  | audio (bytes : List Nat)
deriving DecidableEq, Repr

/-- `zip.file(name, data)` (JSZip): adding an entry under an existing name
replaces that entry; otherwise the entry is appended. -/
def zipFile (entries : List (String × ZipData)) (name : String) (data : ZipData) :
    List (String × ZipData) :=
  if entries.any (fun e => e.1 = name) then
    entries.map (fun e => if e.1 = name then (name, data) else e)
  else entries ++ [(name, data)]

/-- The archive built by the ZIP branch: every result's MIDI data under
`result.filename`, then — when `includeMp3` is requested — every result's
retained audio under `result.filename.replace('.mid', '.mp3')`. -/
def buildZip (results : List ConversionResult) (includeMp3 : Bool) :
    List (String × ZipData) :=
  let zip := results.foldl
    (fun zip r => zipFile zip r.filename (ZipData.midi r.midiData)) []
  if includeMp3 then
    results.foldl
      (fun zip r =>
        zipFile zip (stringReplaceFirst r.filename ".mid" ".mp3")
          (ZipData.audio r.audioBuffer)) zip
  else zip

/-! ## Concrete inputs used by the witnesses and counterexamples -/

/-- A small decoded mono buffer standing for a successful decode. -/
def demoBuf : AudioBuffer := ⟨16000, 2, [[0, 1]]⟩

/-- Concrete collaborators: decoding fails exactly on the raw bytes
`[99]`, resampling is the identity render, and transcription returns one
fixed note. -/
def demoStages : Stages :=
  { loadAudio := fun b =>
      if b = [99] then Except.error ⟨ErrKind.decodeError, "bad container"⟩
      else Except.ok demoBuf
    resampleRender := fun b _ => Except.ok b
    transcribe := fun _ => Except.ok ⟨[⟨60, 0, 1, some 90⟩]⟩
    requiredSampleRate := 16000 }

/-- Concrete collaborators whose transcription returns two notes, one of
duration 1 and one of duration 5 (the latter exceeds a 3-second cap). -/
def demoStagesTwoNotes : Stages :=
  { demoStages with
    transcribe := fun _ => Except.ok ⟨[⟨60, 0, 1, some 90⟩, ⟨64, 0, 5, none⟩]⟩ }

/-- A settings object with no trimming, no custom title and the duration
filter disabled. -/
def demoSettings : Settings :=
  { customTitle := "", maxNotes := 3, enableMaxNotes := false
    startTime := 0, endTime := 0, zipOutput := true, includeMp3 := true }

/-- The demo settings with the duration filter enabled (cap 3 seconds). -/
def demoSettingsFilter : Settings :=
  { demoSettings with enableMaxNotes := true }

/-- A four-frame, one-channel buffer at 4 Hz. -/
def quadBuf : AudioBuffer := ⟨4, 4, [[1, 2, 3, 4]]⟩

/-- A two-channel (stereo) buffer. -/
def stereoBuf : AudioBuffer := ⟨4, 2, [[0, 2], [1, 3]]⟩

/-- The error kind of a trim outcome, `none` for a returned buffer. -/
def errKindOf (x : Except JsError AudioBuffer) : Option ErrKind :=
  match x with
  | Except.error e => some e.kind
  | Except.ok _ => none

/-! ## General lemmas about the embedded primitives -/

theorem foldl_add_map_sum {α : Type} (f : α → ℚ) :
    ∀ (l : List α) (a : ℚ), l.foldl (fun s x => s + f x) a = a + (l.map f).sum
  | [], a => by simp
  | x :: xs, a => by
    simp only [List.foldl_cons, List.map_cons, List.sum_cons, foldl_add_map_sum f xs]
    ring

theorem getD_range_map {α : Type} [Inhabited α] (f : Nat → α) (d : α) {n i : Nat}
    (hi : i < n) : ((List.range n).map f).getD i d = f i := by
  rw [List.getD_eq_getElem?_getD, List.getElem?_map, List.getElem?_range hi]
  rfl

theorem range_map_chanRead (ch : List ℚ) (ss : ℤ) (L : ℕ) (hss : 0 ≤ ss)
    (hle : ss.toNat + L ≤ ch.length) :
    (List.range L).map (fun i : ℕ => chanRead ch (ss + i)) = (ch.drop ss.toNat).take L := by
  apply List.ext_getElem
  · simp only [List.length_map, List.length_range, List.length_take, List.length_drop]
    omega
  · intro i h1 h2
    have hi : i < L := by simpa using h1
    have hb : 0 ≤ ss + (i : ℤ) ∧ ss + (i : ℤ) < (ch.length : ℤ) := by
      constructor <;> omega
    have ht : (ss + (i : ℤ)).toNat = ss.toNat + i := by omega
    have hlen : ss.toNat + i < ch.length := by omega
    rw [List.getElem_map, List.getElem_range, List.getElem_take, List.getElem_drop]
    unfold chanRead
    rw [if_pos hb, ht]
    exact List.getD_eq_getElem ch 0 hlen

/-- When the computed sample range is non-degenerate and in bounds, the
trim returns the per-channel copy of `[startSample, endSample)`. -/
theorem trimAudio_ok_of (b : AudioBuffer) (s : ℚ) (e : Option ℚ)
    (hwf : b.wellFormed)
    (h0 : 0 ≤ startSampleOf b s)
    (hlt : startSampleOf b s < endSampleOf b e)
    (hle : endSampleOf b e ≤ (b.frameCount : ℤ)) :
    trimAudio b s e = Except.ok
      { sampleRate := b.sampleRate
        frameCount := (endSampleOf b e - startSampleOf b s).toNat
        channels := b.channels.map (fun ch =>
          (ch.drop (startSampleOf b s).toNat).take
            (endSampleOf b e - startSampleOf b s).toNat) } := by
  simp only [trimAudio]
  rw [if_neg (by omega)]
  have hch : ∀ ch ∈ b.channels,
      (List.range (endSampleOf b e - startSampleOf b s).toNat).map
        (fun i : ℕ => chanRead ch (startSampleOf b s + i)) =
      (ch.drop (startSampleOf b s).toNat).take
        (endSampleOf b e - startSampleOf b s).toNat := by
    intro ch hc
    apply range_map_chanRead ch _ _ h0
    rw [hwf ch hc]
    omega
  rw [List.map_congr_left hch]

/-! ### Unfolding lemmas for the orchestrator loop -/

theorem exceptBind_ok {α β : Type} {x : Except JsError α} {f : α → Except JsError β} {b : β}
    (h : (x >>= f) = Except.ok b) : ∃ a, x = Except.ok a ∧ f a = Except.ok b := by
  cases x with
  | error e => simp [Bind.bind, Except.bind] at h
  | ok a => exact ⟨a, rfl, by simpa [Bind.bind, Except.bind] using h⟩

/-- A successful item run produces exactly the result record built from
the transcribed sequence: MIDI data from `generateMIDI`, the name from
`chooseName`, the retained raw bytes, and the pre-filter note count. -/
theorem processItem_ok_spec (st : Stages) (settings : Settings) (total i : Nat)
    (source : Source) (r : ConversionResult)
    (h : processItem st settings total i source = Except.ok r) :
    ∃ noteSequence : NoteSequence,
      r = { midiData := generateMIDI noteSequence
              { maxNoteDuration := some settings.maxNotes
                enableMaxNotesFilter := settings.enableMaxNotes }
            filename := chooseName settings total i source
            audioBuffer := source.buffer
            noteCount := getNoteCount noteSequence } := by
  unfold processItem at h
  obtain ⟨buf1, _, h⟩ := exceptBind_ok h
  simp only [] at h
  by_cases hc : 0 < settings.startTime ∨ 0 < settings.endTime
  · rw [if_pos hc] at h
    obtain ⟨buf2, _, h⟩ := exceptBind_ok h
    obtain ⟨buf3, _, h⟩ := exceptBind_ok h
    obtain ⟨noteSequence, _, h⟩ := exceptBind_ok h
    refine ⟨noteSequence, ?_⟩
    injection h with h
    exact h.symm
  · rw [if_neg hc] at h
    obtain ⟨buf2, _, h⟩ := exceptBind_ok h
    obtain ⟨buf3, _, h⟩ := exceptBind_ok h
    obtain ⟨noteSequence, _, h⟩ := exceptBind_ok h
    refine ⟨noteSequence, ?_⟩
    injection h with h
    exact h.symm

theorem runLoopAux_cons_cancel (st : Stages) (settings : Settings) (total : Nat)
    (cancel : Nat → Bool) (i : Nat) (source : Source) (rest : List Source)
    (state : BatchState) (hc : cancel i = true) :
    runLoopAux st settings total cancel i (source :: rest) state = state := by
  simp only [runLoopAux]
  rw [if_pos hc]

theorem runLoopAux_cons_ok (st : Stages) (settings : Settings) (total : Nat)
    (cancel : Nat → Bool) (i : Nat) (source : Source) (rest : List Source)
    (state : BatchState) (r : ConversionResult)
    (hp : processItem st settings total i source = Except.ok r)
    (hc : cancel i = false) :
    runLoopAux st settings total cancel i (source :: rest) state =
      runLoopAux st settings total cancel (i + 1) rest
        { state with results := state.results ++ [r] } := by
  simp only [runLoopAux]
  rw [if_neg (by rw [hc]; exact Bool.false_ne_true), hp]

theorem runLoopAux_cons_error (st : Stages) (settings : Settings) (total : Nat)
    (cancel : Nat → Bool) (i : Nat) (source : Source) (rest : List Source)
    (state : BatchState) (e : JsError)
    (hp : processItem st settings total i source = Except.error e)
    (hc : cancel i = false) :
    runLoopAux st settings total cancel i (source :: rest) state =
      runLoopAux st settings total cancel (i + 1) rest
        { state with errors := state.errors ++ [(source.name, e.kind, e.message)] } := by
  simp only [runLoopAux]
  rw [if_neg (by rw [hc]; exact Bool.false_ne_true), hp]

/-- Every attempted item contributes exactly one entry, a result or an
error: without cancellation the counts sum to the batch size. -/
theorem runLoopAux_count (st : Stages) (settings : Settings) (total : Nat) :
    ∀ (sources : List Source) (i : Nat) (state : BatchState),
      (runLoopAux st settings total noCancel i sources state).results.length +
        (runLoopAux st settings total noCancel i sources state).errors.length =
      state.results.length + state.errors.length + sources.length := by
  intro sources
  induction sources with
  | nil => intro i state; rfl
  | cons source rest ih =>
    intro i state
    cases hp : processItem st settings total i source with
    | ok r =>
      rw [runLoopAux_cons_ok st settings total noCancel i source rest state r hp rfl, ih]
      simp only [List.length_append, List.length_cons, List.length_nil]
      omega
    | error e =>
      rw [runLoopAux_cons_error st settings total noCancel i source rest state e hp rfl, ih]
      simp only [List.length_append, List.length_cons, List.length_nil]
      omega

/-- A cancellation flag first observed at boundary `c` makes the loop run
exactly as the uncancelled loop over the first `c - i` remaining items. -/
theorem runLoopAux_cancelFrom (st : Stages) (settings : Settings) (total c : Nat) :
    ∀ (sources : List Source) (i : Nat) (state : BatchState),
      runLoopAux st settings total (cancelFrom c) i sources state =
        runLoopAux st settings total noCancel i (sources.take (c - i)) state := by
  intro sources
  induction sources with
  | nil => intro i state; rw [List.take_nil]; rfl
  | cons source rest ih =>
    intro i state
    by_cases hc : c ≤ i
    · have h1 : cancelFrom c i = true := by simp [cancelFrom, hc]
      have h2 : c - i = 0 := by omega
      rw [runLoopAux_cons_cancel st settings total (cancelFrom c) i source rest state h1, h2,
        List.take_zero]
      simp only [runLoopAux]
    · have h1 : cancelFrom c i = false := by
        simp only [cancelFrom, decide_eq_false_iff_not]
        omega
      have h2 : c - i = (c - (i + 1)) + 1 := by omega
      rw [h2, List.take_succ_cons]
      cases hp : processItem st settings total i source with
      | ok r =>
        rw [runLoopAux_cons_ok st settings total (cancelFrom c) i source rest state r hp h1,
          runLoopAux_cons_ok st settings total noCancel i source
            (rest.take (c - (i + 1))) state r hp rfl, ih]
      | error e =>
        rw [runLoopAux_cons_error st settings total (cancelFrom c) i source rest state e hp h1,
          runLoopAux_cons_error st settings total noCancel i source
            (rest.take (c - (i + 1))) state e hp rfl, ih]

/-! ## Claim C2: cooperative cancellation at item boundaries -/

/-- C2: when the flag is requested after item `k` completes and before
item `k+1` starts (observed set from boundary `k+1` on), the loop runs
exactly as the uncancelled loop over the first `k+1` sources — nothing at
or beyond the cursor is processed or recorded — and exactly `k+1` items
were attempted (`results` plus `errors` sum to `k+1`). -/
theorem C2_cancellation (st : Stages) (settings : Settings) (sources : List Source)
    (k : Nat) (h : k + 1 < sources.length) :
    runLoop st settings sources (cancelFrom (k + 1)) =
      runLoopAux st settings sources.length noCancel 0 (sources.take (k + 1)) ⟨[], []⟩ ∧
    (runLoop st settings sources (cancelFrom (k + 1))).results.length +
      (runLoop st settings sources (cancelFrom (k + 1))).errors.length = k + 1 := by
  have he := runLoopAux_cancelFrom st settings sources.length (k + 1) sources 0 ⟨[], []⟩
  rw [Nat.sub_zero] at he
  refine ⟨he, ?_⟩
  show (runLoopAux st settings sources.length (cancelFrom (k + 1)) 0 sources
      ⟨[], []⟩).results.length +
    (runLoopAux st settings sources.length (cancelFrom (k + 1)) 0 sources
      ⟨[], []⟩).errors.length = k + 1
  rw [he, runLoopAux_count st settings sources.length (sources.take (k + 1)) 0 ⟨[], []⟩]
  simp only [List.length_take, List.length_nil]
  omega

/-- Witness for C2: a three-source batch with the flag set between item 1
completing and item 2 starting (`k = 1`): two items attempted. -/
theorem C2_witness :
    runLoop demoStages demoSettings [⟨[1], "one"⟩, ⟨[99], "two"⟩, ⟨[3], "three"⟩]
        (cancelFrom 2) =
      runLoopAux demoStages demoSettings 3 noCancel 0
        ([⟨[1], "one"⟩, ⟨[99], "two"⟩, ⟨[3], "three"⟩].take 2) ⟨[], []⟩ ∧
    (runLoop demoStages demoSettings [⟨[1], "one"⟩, ⟨[99], "two"⟩, ⟨[3], "three"⟩]
        (cancelFrom 2)).results.length +
      (runLoop demoStages demoSettings [⟨[1], "one"⟩, ⟨[99], "two"⟩, ⟨[3], "three"⟩]
        (cancelFrom 2)).errors.length = 2 :=
  C2_cancellation demoStages demoSettings
    [⟨[1], "one"⟩, ⟨[99], "two"⟩, ⟨[3], "three"⟩] 1 (by decide)

/-! ## Claim C3: partial failure never aborts the batch -/

/-- C3: every attempted item appends exactly one entry — a result on
success, a `(name, kind, message)` error entry on any stage failure — and
the loop always continues: counts sum to the batch size, and a batch of
three sources whose second item fails ends with two results and one error
naming the second source. -/
theorem C3_item_failure_continues :
    (∀ (st : Stages) (settings : Settings) (sources : List Source),
      (runLoop st settings sources noCancel).results.length +
        (runLoop st settings sources noCancel).errors.length = sources.length) ∧
    (∀ (st : Stages) (settings : Settings) (s1 s2 s3 : Source)
      (r1 r3 : ConversionResult) (e : JsError),
      processItem st settings 3 0 s1 = Except.ok r1 →
      processItem st settings 3 1 s2 = Except.error e →
      processItem st settings 3 2 s3 = Except.ok r3 →
      runLoop st settings [s1, s2, s3] noCancel =
        ⟨[r1, r3], [(s2.name, e.kind, e.message)]⟩) := by
  constructor
  · intro st settings sources
    show (runLoopAux st settings sources.length noCancel 0 sources ⟨[], []⟩).results.length +
      (runLoopAux st settings sources.length noCancel 0 sources ⟨[], []⟩).errors.length =
      sources.length
    rw [runLoopAux_count st settings sources.length sources 0 ⟨[], []⟩]
    simp
  · intro st settings s1 s2 s3 r1 r3 e h1 h2 h3
    show runLoopAux st settings 3 noCancel 0 [s1, s2, s3] ⟨[], []⟩ = _
    rw [runLoopAux_cons_ok st settings 3 noCancel 0 s1 [s2, s3] ⟨[], []⟩ r1 h1 rfl,
      runLoopAux_cons_error st settings 3 noCancel 1 s2 [s3] _ e h2 rfl,
      runLoopAux_cons_ok st settings 3 noCancel 2 s3 [] _ r3 h3 rfl]
    rfl

/-- Witness for C3: the three-source demo batch whose second item fails to
decode ends with two results and one error naming source two. -/
theorem C3_witness :
    runLoop demoStages demoSettings [⟨[1], "one"⟩, ⟨[99], "two"⟩, ⟨[3], "three"⟩] noCancel =
      ⟨[⟨[⟨60, 0, 1, 90/127⟩], "onemid", [1], 1⟩,
        ⟨[⟨60, 0, 1, 90/127⟩], "threemid", [3], 1⟩],
       [("two", ErrKind.decodeError, "bad container")]⟩ :=
  C3_item_failure_continues.2 demoStages demoSettings ⟨[1], "one"⟩ ⟨[99], "two"⟩ ⟨[3], "three"⟩
    ⟨[⟨60, 0, 1, 90/127⟩], "onemid", [1], 1⟩
    ⟨[⟨60, 0, 1, 90/127⟩], "threemid", [3], 1⟩
    ⟨ErrKind.decodeError, "bad container"⟩
    (by decide) (by decide) (by decide)

/-! ## Claim C4: trimming with a degenerate range -/

/-- C4 (amended): whenever the computed `endSample` is at or before
`startSample`, `trimAudio` fails — but with the platform buffer-constructor
error (`createBuffer` rejects the non-positive length), not with an
`InvalidTrimRangeError`; the function performs no range validation of its
own. -/
theorem C4_degenerate_range_host_error (b : AudioBuffer) (s : ℚ) (e : Option ℚ)
    (h : endSampleOf b e ≤ startSampleOf b s) :
    trimAudio b s e = Except.error jsNotSupported := by
  simp only [trimAudio]
  rw [if_pos (by omega)]

/-- Counterexample to C4 as stated: `trim(buffer, start=2.0, end=1.0)` on a
concrete buffer raises the host `NotSupportedError`, not an
`InvalidTrimRangeError`. -/
theorem C4_counterexample :
    errKindOf (trimAudio quadBuf 2 (some 1)) = some ErrKind.notSupportedError ∧
    errKindOf (trimAudio quadBuf 2 (some 1)) ≠ some ErrKind.invalidTrimRange := by
  decide

/-- Witness for C4 (amended) at `start = 2`, `end = 1` on `quadBuf`. -/
theorem C4_witness :
    trimAudio quadBuf 2 (some 1) = Except.error jsNotSupported :=
  C4_degenerate_range_host_error quadBuf 2 (some 1) (by decide)

/-! ## Claim C6: trimming with an unset end, and the copied region -/

/-- C6 (amended): a missing `start` defaults to `0` and an unset or zero
`endTime` copies through to the buffer's end unchanged; for an in-range
positive range the copied region is the half-open interval
`[startSample, endSample)` per channel.  (A strictly negative `endTime` is
truthy in JS and is used as an endpoint — it is not "to the end" — and a
negative `start` is used as-is, not clamped to 0.) -/
theorem C6_trim_to_end (b : AudioBuffer) (hwf : b.wellFormed)
    (hfc : 0 < b.frameCount) :
    trimAudio b 0 none = Except.ok b ∧
    trimAudio b 0 (some 0) = Except.ok b ∧
    ∀ s e : ℚ,
      0 ≤ startSampleOf b s →
      startSampleOf b s < endSampleOf b (some e) →
      endSampleOf b (some e) ≤ (b.frameCount : ℤ) →
      trimAudio b s (some e) = Except.ok
        { sampleRate := b.sampleRate
          frameCount := (endSampleOf b (some e) - startSampleOf b s).toNat
          channels := b.channels.map (fun ch =>
            (ch.drop (startSampleOf b s).toNat).take
              (endSampleOf b (some e) - startSampleOf b s).toNat) } := by
  have hss : startSampleOf b 0 = 0 := by
    simp [startSampleOf]
  have hch : ∀ (es : ℤ), es = (b.frameCount : ℤ) → ∀ ch ∈ b.channels,
      (ch.drop (startSampleOf b 0).toNat).take (es - startSampleOf b 0).toNat = id ch := by
    intro es hes ch hc
    rw [hss, hes]
    simp only [Int.toNat_zero, List.drop_zero, sub_zero, Int.toNat_natCast, id]
    exact List.take_of_length_le (le_of_eq (hwf ch hc))
  refine ⟨?_, ?_, fun s e h0 hlt hle => trimAudio_ok_of b s (some e) hwf h0 hlt hle⟩
  · have hes : endSampleOf b none = (b.frameCount : ℤ) := rfl
    rw [trimAudio_ok_of b 0 none hwf (by rw [hss]) (by rw [hss, hes]; exact_mod_cast hfc)
      (le_of_eq hes)]
    rw [List.map_congr_left (hch (endSampleOf b none) hes), List.map_id]
    rw [hss, hes]
    simp
  · have hes : endSampleOf b (some 0) = (b.frameCount : ℤ) := by
      simp [endSampleOf]
    rw [trimAudio_ok_of b 0 (some 0) hwf (by rw [hss]) (by rw [hss, hes]; exact_mod_cast hfc)
      (le_of_eq hes)]
    rw [List.map_congr_left (hch (endSampleOf b (some 0)) hes), List.map_id]
    rw [hss, hes]
    simp

/-- Counterexample to C6 as stated: on `quadBuf` (4 frames), a negative
`endTime` (which is `≤ 0`) does not copy to the end but produces a host
error, and a negative `start` is not treated as `0`: the trim yields an
8-frame buffer instead of the 4-frame one a zero start would give. -/
theorem C6_counterexample :
    trimAudio quadBuf 0 (some (-1)) = Except.error jsNotSupported ∧
    (trimAudio quadBuf (-1) none).toOption.map AudioBuffer.frameCount = some 8 ∧
    (trimAudio quadBuf (-1) none).toOption.map AudioBuffer.frameCount ≠
      some quadBuf.frameCount := by
  decide

/-- Witness for C6 (amended) on `quadBuf`: end unset, end `= 0`, and the
in-range trim `[1/4, 3/4)` seconds, which copies frames 1 and 2. -/
theorem C6_witness :
    trimAudio quadBuf 0 none = Except.ok quadBuf ∧
    trimAudio quadBuf 0 (some 0) = Except.ok quadBuf ∧
    trimAudio quadBuf (1/4) (some (3/4)) = Except.ok ⟨4, 2, [[2, 3]]⟩ := by
  have h := C6_trim_to_end quadBuf (by decide) (by decide)
  exact ⟨h.1, h.2.1,
    (h.2.2 (1/4) (3/4) (by decide) (by decide) (by decide)).trans (by decide)⟩

/-! ## Claim C7: the duration filter boundary -/

/-- C7: with the duration filter enabled and a `maxDuration` provided, the
encoder keeps exactly the notes whose duration `endTime - startTime` is at
most `maxDuration` — a note of duration exactly `maxDuration` is retained,
one strictly above it is dropped. -/
theorem C7_duration_filter (noteSequence : NoteSequence) (maxDuration : ℚ) :
    generateMIDI noteSequence ⟨some maxDuration, true⟩ =
      (filterByDuration noteSequence.notes maxDuration).map toMidiNote ∧
    ∀ note ∈ noteSequence.notes,
      (note.endTime - note.startTime ≤ maxDuration →
        note ∈ filterByDuration noteSequence.notes maxDuration) ∧
      (maxDuration < note.endTime - note.startTime →
        note ∉ filterByDuration noteSequence.notes maxDuration) := by
  refine ⟨rfl, fun note hmem => ⟨fun hle => ?_, fun hgt hin => ?_⟩⟩
  · unfold filterByDuration
    rw [List.mem_filter]
    exact ⟨hmem, by simpa using hle⟩
  · unfold filterByDuration at hin
    rw [List.mem_filter] at hin
    have : note.endTime - note.startTime ≤ maxDuration := by simpa using hin.2
    exact absurd this (not_le.mpr hgt)

/-- Witness for C7: a two-note sequence under a cap of 2 seconds, one note
of duration exactly 2 (kept), one of duration 3 (dropped). -/
theorem C7_witness :
    generateMIDI ⟨[⟨60, 0, 2, none⟩, ⟨62, 0, 3, some 100⟩]⟩ ⟨some 2, true⟩ =
      (filterByDuration [⟨60, 0, 2, none⟩, ⟨62, 0, 3, some 100⟩] 2).map toMidiNote ∧
    (⟨60, 0, 2, none⟩ : SeqNote) ∈ filterByDuration [⟨60, 0, 2, none⟩, ⟨62, 0, 3, some 100⟩] 2 ∧
    (⟨62, 0, 3, some 100⟩ : SeqNote) ∉ filterByDuration [⟨60, 0, 2, none⟩, ⟨62, 0, 3, some 100⟩] 2 := by
  have h := C7_duration_filter ⟨[⟨60, 0, 2, none⟩, ⟨62, 0, 3, some 100⟩]⟩ 2
  exact ⟨h.1, (h.2 ⟨60, 0, 2, none⟩ (by decide)).1 (by decide),
    (h.2 ⟨62, 0, 3, some 100⟩ (by decide)).2 (by decide)⟩

/-! ## Claim C8: the mono fold -/

/-- C8: a mono buffer is returned unchanged (fast path); a multi-channel
buffer folds to one channel of the same frame count whose sample at each
frame is the arithmetic mean over all channels of that frame's samples. -/
theorem C8_mono_fold (b : AudioBuffer) :
    (b.channels.length = 1 → convertToMono b = b) ∧
    (1 < b.channels.length →
      (convertToMono b).channels.length = 1 ∧
      (convertToMono b).frameCount = b.frameCount ∧
      ((convertToMono b).channels.headD []).length = b.frameCount ∧
      ∀ i < b.frameCount,
        sampleAt ((convertToMono b).channels.headD []) i =
          (b.channels.map (fun ch => sampleAt ch i)).sum / (b.channels.length : ℚ)) := by
  constructor
  · intro h
    unfold convertToMono
    rw [if_pos h]
  · intro h
    have hne : ¬ b.channels.length = 1 := by omega
    unfold convertToMono
    rw [if_neg hne]
    refine ⟨rfl, rfl, by simp, fun i hi => ?_⟩
    simp only [List.headD_cons]
    unfold sampleAt
    rw [getD_range_map _ _ hi, foldl_add_map_sum, zero_add]

/-- Witness for C8: the fast path at the mono `demoBuf` and the mean at
frame 0 of the stereo `stereoBuf`. -/
theorem C8_witness :
    (demoBuf.channels.length = 1 ∧ convertToMono demoBuf = demoBuf) ∧
    (1 < stereoBuf.channels.length ∧
      sampleAt ((convertToMono stereoBuf).channels.headD []) 0 =
        (stereoBuf.channels.map (fun ch => sampleAt ch 0)).sum /
          (stereoBuf.channels.length : ℚ)) :=
  ⟨⟨by decide, (C8_mono_fold demoBuf).1 (by decide)⟩,
    ⟨by decide, ((C8_mono_fold stereoBuf).2 (by decide)).2.2.2 0 (by decide)⟩⟩

/-! ## Claim C9: the output naming policy -/

/-- C9 (amended): for a successfully processed item, the output name is
the sanitized custom title when one is supplied and the batch has exactly
one source; the sanitized `{title}_{i+1}` — `i` the item's 0-based
position among the *sources* (not among the produced outputs) — when a
title is supplied and the batch has several sources; and the sanitized
source base name when no title is supplied. -/
theorem C9_naming_policy (st : Stages) (settings : Settings) (total i : Nat)
    (source : Source) (r : ConversionResult)
    (h : processItem st settings total i source = Except.ok r) :
    (settings.customTitle ≠ "" → total = 1 →
      r.filename = sanitizeFilename settings.customTitle) ∧
    (settings.customTitle ≠ "" → 1 < total →
      r.filename = sanitizeFilename (settings.customTitle ++ "_" ++ Nat.repr (i + 1))) ∧
    (settings.customTitle = "" → r.filename = sanitizeFilename source.name) := by
  obtain ⟨seq, hr⟩ := processItem_ok_spec st settings total i source r h
  subst hr
  refine ⟨fun hne h1 => ?_, fun hne hgt => ?_, fun he => ?_⟩
  · show chooseName settings total i source = _
    unfold chooseName
    rw [if_pos ⟨hne, h1⟩]
  · show chooseName settings total i source = _
    unfold chooseName
    rw [if_neg (fun hcon => (by omega : total ≠ 1) hcon.2), if_pos ⟨hne, hgt⟩]
  · show chooseName settings total i source = _
    unfold chooseName
    rw [if_neg (fun hcon => hcon.1 he), if_neg (fun hcon => hcon.1 he)]

/-- Counterexample to C9 as stated: with title `"t"` and two sources whose
first fails to decode, the batch produces a single output — its 1-based
position among the outputs is 1 — yet it is named from index 2, not 1. -/
theorem C9_counterexample :
    (runLoop demoStages { demoSettings with customTitle := "t" }
      [⟨[99], "one"⟩, ⟨[2], "two"⟩] noCancel).results.map (fun r => r.filename) =
      [sanitizeFilename "t_2"] ∧
    sanitizeFilename "t_2" ≠ sanitizeFilename "t_1" := by
  decide

/-- Witness for C9 (amended): the second source (index 1) of a two-source
batch with title `"t"` is named from the 1-based source index 2. -/
theorem C9_witness :
    ({ midiData := [⟨60, 0, 1, 90/127⟩], filename := sanitizeFilename "t_2",
       audioBuffer := [2], noteCount := 1 } : ConversionResult).filename =
      sanitizeFilename ("t" ++ "_" ++ Nat.repr (1 + 1)) :=
  (C9_naming_policy demoStages { demoSettings with customTitle := "t" } 2 1
    ⟨[2], "two"⟩ _ (by decide)).2.1 (by decide) (by decide)

/-! ## Claim C10: noteCount is computed before the duration filter -/

/-- C10: the `noteCount` stored in a result is the length of the full
transcribed sequence, while the MIDI data holds the filtered notes; when
the filter (enabled) drops at least one note, the recorded count strictly
exceeds the number of encoded notes. -/
theorem C10_noteCount_prefilter (st : Stages) (settings : Settings) (total i : Nat)
    (source : Source) (r : ConversionResult)
    (h : processItem st settings total i source = Except.ok r) :
    ∃ noteSequence : NoteSequence,
      r.noteCount = getNoteCount noteSequence ∧
      r.midiData = generateMIDI noteSequence
        { maxNoteDuration := some settings.maxNotes
          enableMaxNotesFilter := settings.enableMaxNotes } ∧
      (settings.enableMaxNotes = true →
        (filterByDuration noteSequence.notes settings.maxNotes).length <
          noteSequence.notes.length →
        r.midiData.length < r.noteCount) := by
  obtain ⟨seq, hr⟩ := processItem_ok_spec st settings total i source r h
  subst hr
  refine ⟨seq, rfl, rfl, fun hen hlt => ?_⟩
  show (generateMIDI seq _).length < getNoteCount seq
  rw [hen]
  have hg : generateMIDI seq ⟨some settings.maxNotes, true⟩ =
      (filterByDuration seq.notes settings.maxNotes).map toMidiNote := rfl
  rw [hg, List.length_map]
  exact hlt

/-- Witness for C10: a transcription of two notes (durations 1 and 5)
under an enabled 3-second cap encodes one note but records a count of 2. -/
theorem C10_witness :
    ∃ noteSequence : NoteSequence,
      ({ midiData := [⟨60, 0, 1, 90/127⟩], filename := "onemid",
         audioBuffer := [1], noteCount := 2 } : ConversionResult).noteCount =
        getNoteCount noteSequence ∧
      ({ midiData := [⟨60, 0, 1, 90/127⟩], filename := "onemid",
         audioBuffer := [1], noteCount := 2 } : ConversionResult).midiData =
        generateMIDI noteSequence
          { maxNoteDuration := some demoSettingsFilter.maxNotes
            enableMaxNotesFilter := demoSettingsFilter.enableMaxNotes } ∧
      (demoSettingsFilter.enableMaxNotes = true →
        (filterByDuration noteSequence.notes demoSettingsFilter.maxNotes).length <
          noteSequence.notes.length →
        ({ midiData := [⟨60, 0, 1, 90/127⟩], filename := "onemid",
           audioBuffer := [1], noteCount := 2 } : ConversionResult).midiData.length <
          ({ midiData := [⟨60, 0, 1, 90/127⟩], filename := "onemid",
             audioBuffer := [1], noteCount := 2 } : ConversionResult).noteCount) :=
  C10_noteCount_prefilter demoStagesTwoNotes demoSettingsFilter 1 0 ⟨[1], "one"⟩ _
    (by decide)

/-! ## Claim C1: the filename sanitizer and the forced `.mid` suffix -/

/-- No character of a collapsed run output is new except `'_'`. -/
theorem mem_collapseAux {c : Char} :
    ∀ (l : List Char) (b : Bool), c ∈ collapseAux b l → c = '_' ∨ c ∈ l := by
  intro l
  induction l with
  | nil => intro b h; simp [collapseAux] at h
  | cons d ds ih =>
    intro b h
    by_cases hd : isDashOrSpace d = true
    · cases b with
      | true =>
        simp only [collapseAux, hd, if_true] at h
        rcases ih true h with h1 | h1
        · exact Or.inl h1
        · exact Or.inr (List.mem_cons_of_mem d h1)
      | false =>
        simp [collapseAux, hd] at h
        rcases h with h1 | h1
        · exact Or.inl h1
        · rcases ih true h1 with h2 | h2
          · exact Or.inl h2
          · exact Or.inr (List.mem_cons_of_mem d h2)
    · simp [collapseAux, hd] at h
      rcases h with h1 | h1
      · exact Or.inr (h1 ▸ List.mem_cons_self d ds)
      · rcases ih false h1 with h2 | h2
        · exact Or.inl h2
        · exact Or.inr (List.mem_cons_of_mem d h2)

/-- The sanitizer's output never contains a dot: the strip pass removes
`'.'` (it is not in `[\w\s-]`) — including the dot of the `.mid` suffix
appended beforehand. -/
theorem sanitizeFilename_no_dot (s : String) : '.' ∉ (sanitizeFilename s).data := by
  intro h
  have h1 : '.' ∈ collapseAux false ((ensureMidSuffix s.data).filter isKeptChar) :=
    List.mem_of_mem_take h
  rcases mem_collapseAux _ _ h1 with h2 | h2
  · exact absurd h2 (by decide)
  · have h3 : isKeptChar '.' = true := List.of_mem_filter h2
    exact absurd h3 (by decide)

/-- C1: the code at the spec's example input.  The `.mid` suffix is
appended before the character strip, which deletes its dot: no output of
the sanitizer ever ends with `".mid"`. -/
theorem C1_code_evaluation :
    sanitizeFilename "My Song! (Live).mp3" = "My_Song_Livemp3mid" ∧
    midSuffix.isSuffixOf (sanitizeFilename "My Song! (Live).mp3").data = false ∧
    sanitizeFilename "a" = "amid" ∧
    midSuffix.isSuffixOf (sanitizeFilename "a").data = false := by
  decide

/-! ## Claim C5: archive entries for MIDI and retained audio -/

/-- `replace` with a pattern starting with a character the string does not
contain is the identity. -/
theorem replaceFirstChars_not_mem (p : Char) (pat rep : List Char) :
    ∀ (l : List Char), p ∉ l → replaceFirstChars l (p :: pat) rep = l := by
  intro l
  induction l with
  | nil => intro _; rfl
  | cons c cs ih =>
    intro hp
    have hc : p ≠ c := fun he => hp (he ▸ List.mem_cons_self c cs)
    have hpre : (p :: pat).isPrefixOf (c :: cs) = false := by
      simp [List.isPrefixOf, hc]
    unfold replaceFirstChars
    rw [hpre]
    simp only [Bool.false_eq_true, if_false, List.cons.injEq, true_and]
    exact ih (fun hm => hp (List.mem_cons_of_mem c hm))

/-- Since a sanitized output name contains no dot, the source's
`filename.replace('.mid', '.mp3')` leaves it unchanged: the derived audio
entry name always equals the MIDI entry name. -/
theorem audioName_eq_midiName (s : String) :
    stringReplaceFirst (sanitizeFilename s) ".mid" ".mp3" = sanitizeFilename s := by
  unfold stringReplaceFirst
  rw [show (".mid" : String).data = '.' :: ['m', 'i', 'd'] from rfl]
  rw [replaceFirstChars_not_mem '.' ['m', 'i', 'd'] _ _ (sanitizeFilename_no_dot s)]

/-- C5: the code at a concrete two-result batch with "include original
audio": since the sanitized names contain no `".mid"`, the derived audio
names collide with the MIDI names and `zip.file` overwrites the MIDI
entries — the archive holds only the audio bytes, and no MIDI entry. -/
theorem C5_code_evaluation :
    stringReplaceFirst (sanitizeFilename "a") ".mid" ".mp3" = sanitizeFilename "a" ∧
    buildZip [⟨[⟨60, 0, 1, 64/127⟩], sanitizeFilename "a", [1], 1⟩,
              ⟨[⟨62, 0, 1, 64/127⟩], sanitizeFilename "b", [2], 1⟩] true =
      [(sanitizeFilename "a", ZipData.audio [1]),
       (sanitizeFilename "b", ZipData.audio [2])] ∧
    ¬ ((sanitizeFilename "a", ZipData.midi [⟨60, 0, 1, 64/127⟩]) ∈
        buildZip [⟨[⟨60, 0, 1, 64/127⟩], sanitizeFilename "a", [1], 1⟩,
                  ⟨[⟨62, 0, 1, 64/127⟩], sanitizeFilename "b", [2], 1⟩] true) := by
  decide

end MidiConvert
